import Mathlib

/-!
Verification development for the `ftdi-embedded-hal` protocol/command engine.

The Rust sources are shallowly embedded: every MPSSE builder call becomes one
constructor of `MpsseOp`, a `write_all`/`send` of a finished builder appends
its operation list to the stream sent to the chip, and every `read_all`/`recv`
consumes response bytes from an oracle `resp : Nat → Nat` that enumerates the
response bytes in issuance order (the transport's central ordering invariant).
Machine integers (`u8`) are modelled as `Nat` with explicit `% 256` or
bit-masking where the Rust code can overflow.
-/

namespace FtdiHal

/-- Polarity selector of the MPSSE `clock_bits_out` command
(`ClockBitsOut::MsbNeg` is the one used by the I2C engine). -/
inductive ClockBitsOutPol
  | msbNeg
  | msbPos
deriving DecidableEq, Repr

/-- Polarity selector of the MPSSE `clock_bits_in` command
(`ClockBitsIn::MsbPos` is the one used by the I2C engine). -/
inductive ClockBitsInPol
  | msbPos
  | msbNeg
deriving DecidableEq, Repr

/-- Polarity selector of the MPSSE `clock_data` command (`ClockData`). -/
inductive ClockDataPol
  | msbPosIn
  | msbNegIn
deriving DecidableEq, Repr

/-- Polarity selector of the MPSSE `clock_data_out` command (`ClockDataOut`). -/
inductive ClockDataOutPol
  | msbNeg
  | msbPos
deriving DecidableEq, Repr

/-- One primitive MPSSE operation, as appended by one `MpsseCmdBuilder`
method call in the Rust sources. -/
inductive MpsseOp
  | setGpioLower (value direction : Nat)
  | clockBitsOut (pol : ClockBitsOutPol) (byte : Nat) (count : Nat)
  | clockBitsIn (pol : ClockBitsInPol) (count : Nat)
  | clockData (pol : ClockDataPol) (data : List Nat)
  | clockDataOut (pol : ClockDataOutPol) (data : List Nat)
  | enable3PhaseDataClocking
  | sendImmediate
deriving DecidableEq, Repr

/-- SCL bitmask (`const SCL: u8 = 1 << 0` in `i2c.rs`). -/
def SCL : Nat := 1 <<< 0

/-- SDA bitmask (`const SDA: u8 = 1 << 1` in `i2c.rs`). -/
def SDA : Nat := 1 <<< 1

/-- `const BITS_IN: ClockBitsIn = ClockBitsIn::MsbPos` in `i2c.rs`. -/
def BITS_IN : ClockBitsInPol := .msbPos

/-- `const BITS_OUT: ClockBitsOut = ClockBitsOut::MsbNeg` in `i2c.rs`. -/
def BITS_OUT : ClockBitsOutPol := .msbNeg

/-- Error type of the I2C methods (`I2cError` in `i2c.rs`), with an extra
constructor modelling an assertion failure (`assert!` panic) so that the
`assert!(!buffer.is_empty())` guards are part of the embedding.  Transport
timeouts are not modelled: the transport oracle is infallible here. -/
inductive I2cOutcome (α : Type)
  | panicked (msg : String)
  | nak
  | ok (a : α)
deriving DecidableEq, Repr

/-- Result of running one I2C method: the MPSSE operations written to the
chip, in issuance order (concatenation of all `write_all` batches, each batch
ending in its `send_immediate` marker), and the method's outcome. -/
structure I2cRun (α : Type) where
  sent : List MpsseOp
  outcome : I2cOutcome α
deriving DecidableEq, Repr

/-- The slave-ACK check shared by every I2C method in `i2c.rs`:
`if (ack_buf[0] & 0b1) != 0x00 { return Err(I2cError::Nak); }`. -/
def sakDecode (v : Nat) : Bool :=
  v &&& 0b1 != 0x00

/-- ST (start condition) of `read_fast`/`read_slow`/`write_fast`/
`write_read_fast`/`write_read_slow` (`i2c.rs`): `start_stop_cmds` repetitions
of `set_gpio_lower(value | SCL | SDA, SCL | SDA | direction)` followed by
`start_stop_cmds` repetitions of
`set_gpio_lower(value | SCL, SCL | SDA | direction)`. -/
def i2cStart (v d m : Nat) : List MpsseOp :=
  List.replicate m (.setGpioLower (v ||| SCL ||| SDA) (SCL ||| SDA ||| d)) ++
  List.replicate m (.setGpioLower (v ||| SCL) (SCL ||| SDA ||| d))

/-- ST of `write_slow` (`i2c.rs` lines 347–354), which writes the same bits in
a different textual order: `SCL | SDA | inner.value` and `SCL | inner.value`. -/
def i2cStartW (v d m : Nat) : List MpsseOp :=
  List.replicate m (.setGpioLower (SCL ||| SDA ||| v) (SCL ||| SDA ||| d)) ++
  List.replicate m (.setGpioLower (SCL ||| v) (SCL ||| SDA ||| d))

/-- SAD+R section: drive both lines, clock out `(address << 1) | 1` MSB-first.
The `u8` shift wraps, hence the explicit `% 256`. -/
def i2cSadR (v d addr : Nat) : List MpsseOp :=
  [.setGpioLower v (SCL ||| SDA ||| d),
   .clockBitsOut BITS_OUT (((addr <<< 1) % 256) ||| 1) 8]

/-- SAD+W section: drive both lines, clock out `addr << 1` MSB-first. -/
def i2cSadW (v d addr : Nat) : List MpsseOp :=
  [.setGpioLower v (SCL ||| SDA ||| d),
   .clockBitsOut BITS_OUT ((addr <<< 1) % 256) 8]

/-- SAK section: release SDA (`SCL | direction` only) and clock in one bit. -/
def i2cSak (v d : Nat) : List MpsseOp :=
  [.setGpioLower v (SCL ||| d), .clockBitsIn BITS_IN 1]

/-- Payload-read loop of `read_fast`/`read_slow`/`write_read_fast`/
`write_read_slow`: for each `idx in 0..buffer.len()`, clock in 8 bits, then
clock out one bit — `0x80` (NMAK) on the last byte, `0x00` (MAK) otherwise. -/
def i2cReadLoop (v d n : Nat) : List MpsseOp :=
  (List.range n).flatMap fun idx =>
    [.setGpioLower v (SCL ||| d), .clockBitsIn BITS_IN 8] ++
    (if idx = n - 1 then
      [.setGpioLower v (SCL ||| SDA ||| d), .clockBitsOut BITS_OUT 0x80 1]
    else
      [.setGpioLower v (SCL ||| SDA ||| d), .clockBitsOut BITS_OUT 0x00 1])

/-- One payload byte of the write loops (`Bi`/`Oi` + SAK in `i2c.rs`). -/
def i2cWriteByteChunk (v d b : Nat) : List MpsseOp :=
  [.setGpioLower v (SCL ||| SDA ||| d),
   .clockBitsOut BITS_OUT b 8,
   .setGpioLower v (SCL ||| d),
   .clockBitsIn BITS_IN 1]

/-- SP (stop condition): `start_stop_cmds` repetitions each of
`set_gpio_lower(value, SCL | SDA | direction)` (both lines driven low),
`set_gpio_lower(value | SCL, ...)` (clock raised) and
`set_gpio_lower(value | SCL | SDA, ...)` (data raised while clock high). -/
def i2cStop (v d m : Nat) : List MpsseOp :=
  List.replicate m (.setGpioLower v (SCL ||| SDA ||| d)) ++
  List.replicate m (.setGpioLower (v ||| SCL) (SCL ||| SDA ||| d)) ++
  List.replicate m (.setGpioLower (v ||| SCL ||| SDA) (SCL ||| SDA ||| d))

/-- SR (repeated start) of `write_read_fast`/`write_read_slow`: raise both,
lower SDA with clock high, then drive both low again. -/
def i2cRepStart (v d m : Nat) : List MpsseOp :=
  List.replicate m (.setGpioLower (v ||| SCL ||| SDA) (SCL ||| SDA ||| d)) ++
  List.replicate m (.setGpioLower (v ||| SCL) (SCL ||| SDA ||| d)) ++
  List.replicate m (.setGpioLower v (SCL ||| SDA ||| d))

/-- SAD+R as issued after SR in `write_read_fast`/`write_read_slow`: no
leading `set_gpio_lower` (the SR section already left the bus driven). -/
def i2cSadRBare (addr : Nat) : List MpsseOp :=
  [.clockBitsOut BITS_OUT (((addr <<< 1) % 256) ||| 1) 8]

/-- Idle section: restore the stored GPIO value/direction masks. -/
def i2cIdle (v d : Nat) : List MpsseOp :=
  [.setGpioLower v d]

/-- Embedding of `I2c::read_fast` (`i2c.rs` 134–203).  `v`/`d` are the
session's stored `inner.value`/`inner.direction`, `m` is `start_stop_cmds`,
`n` is `buffer.len()`, `resp k` is the k-th response byte read back.  The
single batch is ST, SAD+R, SAK, the payload loop, SP, Idle, `send_immediate`;
then one ACK byte and `n` payload bytes are read and the ACK is checked. -/
def readFastRun (v d m addr n : Nat) (resp : Nat → Nat) : I2cRun (List Nat) :=
  if n = 0 then ⟨[], .panicked "buffer must be a non-empty slice"⟩
  else
    let batch := i2cStart v d m ++ i2cSadR v d addr ++ i2cSak v d ++
      i2cReadLoop v d n ++ i2cStop v d m ++ i2cIdle v d ++ [.sendImmediate]
    if sakDecode (resp 0) then ⟨batch, .nak⟩
    else ⟨batch, .ok ((List.range n).map fun i => resp (1 + i))⟩

/-- Embedding of `I2c::read_slow` (`i2c.rs` 205–277).  Batch 1 is ST, SAD+R,
SAK, `send_immediate`; its ACK is checked before batch 2 (payload loop, SP,
Idle, `send_immediate`) is built and sent. -/
def readSlowRun (v d m addr n : Nat) (resp : Nat → Nat) : I2cRun (List Nat) :=
  if n = 0 then ⟨[], .panicked "buffer must be a non-empty slice"⟩
  else
    let batch1 := i2cStart v d m ++ i2cSadR v d addr ++ i2cSak v d ++
      [.sendImmediate]
    if sakDecode (resp 0) then ⟨batch1, .nak⟩
    else
      let batch2 := i2cReadLoop v d n ++ i2cStop v d m ++ i2cIdle v d ++
        [.sendImmediate]
      ⟨batch1 ++ batch2, .ok ((List.range n).map fun i => resp (1 + i))⟩

/-- Embedding of `I2c::write_fast` (`i2c.rs` 279–338).  One batch; then
`1 + bytes.len()` ACK bytes are read and `Nak` is returned iff any has bit 0
set (`ack_buf.iter().any(|&ack| (ack & 0b1) != 0x00)`). -/
def writeFastRun (v d m addr : Nat) (bytes : List Nat) (resp : Nat → Nat) :
    I2cRun Unit :=
  if bytes = [] then ⟨[], .panicked "bytes must be a non-empty slice"⟩
  else
    let batch := i2cStart v d m ++ i2cSadW v d addr ++ i2cSak v d ++
      (bytes.flatMap fun b => i2cWriteByteChunk v d b) ++
      i2cStop v d m ++ i2cIdle v d ++ [.sendImmediate]
    if (List.range (1 + bytes.length)).any (fun k => sakDecode (resp k)) then
      ⟨batch, .nak⟩
    else ⟨batch, .ok ()⟩

/-- Per-byte loop of `I2c::write_slow` (`i2c.rs` 372–408): element at overall
index `idx` sends its `Bi`+SAK chunk — with SP and Idle appended when
`idx == total - 1` — then `send_immediate`, and checks `resp (idx + 1)`
before continuing; a NAK aborts with no further bus activity. -/
def writeSlowLoop (v d m total : Nat) (resp : Nat → Nat) :
    Nat → List Nat → I2cRun Unit
  | _, [] => ⟨[], .ok ()⟩
  | idx, b :: rest =>
    let chunk := i2cWriteByteChunk v d b ++
      (if idx = total - 1 then i2cStop v d m ++ i2cIdle v d else []) ++
      [.sendImmediate]
    if sakDecode (resp (idx + 1)) then ⟨chunk, .nak⟩
    else
      let r := writeSlowLoop v d m total resp (idx + 1) rest
      ⟨chunk ++ r.sent, r.outcome⟩

/-- Embedding of `I2c::write_slow` (`i2c.rs` 340–411).  Batch 1 is ST, SAD+W,
SAK, `send_immediate`; its ACK gates the per-byte loop. -/
def writeSlowRun (v d m addr : Nat) (bytes : List Nat) (resp : Nat → Nat) :
    I2cRun Unit :=
  if bytes = [] then ⟨[], .panicked "bytes must be a non-empty slice"⟩
  else
    let batch1 := i2cStartW v d m ++ i2cSadW v d addr ++ i2cSak v d ++
      [.sendImmediate]
    if sakDecode (resp 0) then ⟨batch1, .nak⟩
    else
      let r := writeSlowLoop v d m bytes.length resp 0 bytes
      ⟨batch1 ++ r.sent, r.outcome⟩

/-- Embedding of `I2c::write_read_fast` (`i2c.rs` 413–519).  One batch: ST,
SAD+W, SAK, write loop, SR, bare SAD+R, SAK, read loop, SP, Idle,
`send_immediate`; then `2 + bytes.len()` ACK bytes and `n` payload bytes are
read, and `Nak` is returned iff any ACK byte has bit 0 set. -/
def writeReadFastRun (v d m addr : Nat) (bytes : List Nat) (n : Nat)
    (resp : Nat → Nat) : I2cRun (List Nat) :=
  if bytes = [] then ⟨[], .panicked "bytes must be a non-empty slice"⟩
  else if n = 0 then ⟨[], .panicked "buffer must be a non-empty slice"⟩
  else
    let batch := i2cStart v d m ++ i2cSadW v d addr ++ i2cSak v d ++
      (bytes.flatMap fun b => i2cWriteByteChunk v d b) ++
      i2cRepStart v d m ++ i2cSadRBare addr ++ i2cSak v d ++
      i2cReadLoop v d n ++ i2cStop v d m ++ i2cIdle v d ++ [.sendImmediate]
    if (List.range (2 + bytes.length)).any (fun k => sakDecode (resp k)) then
      ⟨batch, .nak⟩
    else
      ⟨batch, .ok ((List.range n).map fun i => resp (2 + bytes.length + i))⟩

/-- Per-byte loop of `I2c::write_read_slow` (`i2c.rs` 561–577): each byte is
its own batch `Oi`+SAK+`send_immediate` whose ACK (`resp (idx + 1)`) is
checked before the next one; no SP is appended inside this loop. -/
def writeReadSlowLoop (v d : Nat) (resp : Nat → Nat) :
    Nat → List Nat → I2cRun Unit
  | _, [] => ⟨[], .ok ()⟩
  | idx, b :: rest =>
    let chunk := i2cWriteByteChunk v d b ++ [.sendImmediate]
    if sakDecode (resp (idx + 1)) then ⟨chunk, .nak⟩
    else
      let r := writeReadSlowLoop v d resp (idx + 1) rest
      ⟨chunk ++ r.sent, r.outcome⟩

/-- Embedding of `I2c::write_read_slow` (`i2c.rs` 521–646).  Batch 1 (ST,
SAD+W, SAK), the per-byte write loop, the SR batch (SR, bare SAD+R, SAK) with
ACK `resp (bytes.len() + 1)`, then the final batch (read loop, SP, Idle). -/
def writeReadSlowRun (v d m addr : Nat) (bytes : List Nat) (n : Nat)
    (resp : Nat → Nat) : I2cRun (List Nat) :=
  if bytes = [] then ⟨[], .panicked "bytes must be a non-empty slice"⟩
  else if n = 0 then ⟨[], .panicked "buffer must be a non-empty slice"⟩
  else
    let batch1 := i2cStart v d m ++ i2cSadW v d addr ++ i2cSak v d ++
      [.sendImmediate]
    if sakDecode (resp 0) then ⟨batch1, .nak⟩
    else
      let r := writeReadSlowLoop v d resp 0 bytes
      match r.outcome with
      | .panicked msg => ⟨batch1 ++ r.sent, .panicked msg⟩
      | .nak => ⟨batch1 ++ r.sent, .nak⟩
      | .ok () =>
        let batchSR := i2cRepStart v d m ++ i2cSadRBare addr ++ i2cSak v d ++
          [.sendImmediate]
        if sakDecode (resp (bytes.length + 1)) then
          ⟨batch1 ++ r.sent ++ batchSR, .nak⟩
        else
          let batchRd := i2cReadLoop v d n ++ i2cStop v d m ++ i2cIdle v d ++
            [.sendImmediate]
          ⟨batch1 ++ r.sent ++ batchSR ++ batchRd,
           .ok ((List.range n).map fun i => resp (bytes.length + 2 + i))⟩

/-- Remove the `send_immediate` (flush) markers from an operation stream;
the spec's strategy-equivalence property compares streams modulo these. -/
def removeFlush (ops : List MpsseOp) : List MpsseOp :=
  ops.filter fun op => op ≠ .sendImmediate

/-- Pin-purpose tag (`enum PinUse` in `lib.rs`). -/
inductive PinUse
  | i2c
  | spi
  | output
  | input
deriving DecidableEq, Repr

/-- Session state guarded by the mutex (`struct FtInner` in `lib.rs`): the
GPIO direction and value masks and the 8-entry pin-ownership table.  The
device handle itself is modelled by the response oracle of each run. -/
structure FtInner where
  direction : Nat
  value : Nat
  pins : List (Option PinUse)
deriving DecidableEq, Repr

/-- `FtInner` produced by `From<Device> for FtInner` in `lib.rs`:
direction 0, value 0, no pin allocated. -/
def ftInnerNew : FtInner :=
  ⟨0x00, 0x00, List.replicate 8 none⟩

/-- Embedding of `FtInner::allocate_pin` (`lib.rs` 203–214).  Both failure
modes are panics in the source (`assert!` for the range check and `panic!`
for the ownership conflict); a panic unwinds before any field of the session
is assigned, so the state is returned unchanged alongside the error. -/
def allocate_pin (s : FtInner) (idx : Nat) (purpose : PinUse) :
    Except String Unit × FtInner :=
  if idx < 8 then
    match s.pins.getD idx none with
    | some _ => (.error "pin is already allocated", s)
    | none => (.ok (), { s with pins := s.pins.set idx (some purpose) })
  else (.error "pin index is out of range 0 - 7", s)

/-- Per-handle I2C configuration (`struct I2c` in `i2c.rs`): the
`start_stop_cmds` margin and the fast/slow toggle. -/
structure I2cHandle where
  start_stop_cmds : Nat
  fast : Bool
deriving DecidableEq, Repr

/-- Embedding of `I2c::new` (`i2c.rs` 57–86): allocate pins 0, 1, 2 for I2C
(any conflict panics before any bus write), clear the low three bits of the
direction and value masks, send one batch (set GPIO, enable 3-phase clocking,
`send_immediate`) and return a handle with `start_stop_cmds: 3, fast: false`.
`!0x07` on `u8` is `0xF8`. -/
def i2cNew (s : FtInner) :
    Except String (FtInner × I2cHandle × List MpsseOp) :=
  match allocate_pin s 0 .i2c with
  | (.error e, _) => .error e
  | (.ok (), s1) =>
    match allocate_pin s1 1 .i2c with
    | (.error e, _) => .error e
    | (.ok (), s2) =>
      match allocate_pin s2 2 .i2c with
      | (.error e, _) => .error e
      | (.ok (), s3) =>
        let s4 : FtInner :=
          { s3 with direction := s3.direction &&& 0xF8,
                    value := s3.value &&& 0xF8 }
        .ok (s4, ⟨3, false⟩,
          [.setGpioLower s4.value s4.direction, .enable3PhaseDataClocking,
           .sendImmediate])

/-- Embedding of `I2c::set_stop_start_len` (`i2c.rs` 106–108). -/
def set_stop_start_len (h : I2cHandle) (start_stop_cmds : Nat) : I2cHandle :=
  { h with start_stop_cmds := start_stop_cmds }

/-- HAL error kinds (`enum ErrorKind` in `error.rs`);
`invalidParams` is the malformed-parameter error of the spec. -/
inductive ErrorKind
  | invalidParams
  | invalidClock
  | busBusy
  | i2cNoAck
  | gpioPinBusy
  | gpioInvalidPin
  | spiModeNotSupported
deriving DecidableEq, Repr

/-- SPI polarity pair (`struct Polarity` in `spi.rs`). -/
structure Polarity where
  clk : ClockDataPol
  clk_out : ClockDataOutPol
deriving DecidableEq, Repr

/-- `Default for Polarity` in `spi.rs`: `MsbPosIn` / `MsbNeg` (mode 0). -/
def polarityDefault : Polarity :=
  ⟨.msbPosIn, .msbNeg⟩

instance {ε α : Type} [DecidableEq ε] [DecidableEq α] :
    DecidableEq (Except ε α) := fun a b =>
  match a, b with
  | .ok x, .ok y =>
    if h : x = y then .isTrue (by rw [h]) else .isFalse (by simp [h])
  | .error x, .error y =>
    if h : x = y then .isTrue (by rw [h]) else .isFalse (by simp [h])
  | .ok _, .error _ => .isFalse (by simp)
  | .error _, .ok _ => .isFalse (by simp)

/-- Response bytes pending in the chip's internal read buffer: the MPSSE
produces one response byte per byte clocked by a `clock_data` command. -/
structure SpiChipBuf where
  pending : List Nat
deriving DecidableEq, Repr

/-- Result of one SPI bus call: the operations sent, the bytes captured into
the caller's read buffer, the outcome, and the chip buffer afterwards. -/
structure SpiRun where
  sent : List MpsseOp
  captured : List Nat
  outcome : Except ErrorKind Unit
  chip : SpiChipBuf
deriving DecidableEq, Repr

/-- Embedding of `Spi::write` (`spi.rs` 138–147, identically 241–250): build
`clock_data_out(pol.clk_out, words)` + `send_immediate` and send it; there is
no emptiness check and no response read.  `clock_data_out` produces no
response bytes, so the chip buffer is untouched. -/
def spiWrite (pol : Polarity) (words : List Nat) (chip : SpiChipBuf) : SpiRun :=
  ⟨[.clockDataOut pol.clk_out words, .sendImmediate], [], .ok (), chip⟩

/-- Embedding of `SpiBus::transfer` for `Spi` (`spi.rs` 292–302): send
`clock_data(pol.clk, write)` + `send_immediate`, then `recv` exactly
`readLen = read.len()` bytes.  The chip appends one response byte per byte of
`write` (sampled from the `miso` oracle); `recv` consumes `readLen` bytes
from the front of the chip buffer and the rest stays pending. -/
def spiTransfer (pol : Polarity) (readLen : Nat) (write : List Nat)
    (miso : Nat → Nat) (chip : SpiChipBuf) : SpiRun :=
  let produced := chip.pending ++
    (List.range write.length).map fun i => miso i
  ⟨[.clockData pol.clk write, .sendImmediate],
   produced.take readLen, .ok (), ⟨produced.drop readLen⟩⟩

/-- Embedding of `SpiDevice::transaction` (`spi.rs` 526–570).  The closure
`f` is abstracted by the operations it issues on the bus and its result.
Under the single mutex guard held for the whole call, the chip-select pin is
asserted (`value & !cs_mask`), the closure runs, the bus is flushed (a
no-op), and the chip-select pin is deasserted (`value | cs_mask`) even when
the closure returned an error; the closure's result is passed through. -/
def spiDeviceTransaction {R : Type} (csIdx v d : Nat)
    (fOps : List MpsseOp) (fRes : Except ErrorKind R) :
    List MpsseOp × Except ErrorKind R :=
  let csMask := 1 <<< csIdx
  ([.setGpioLower (v &&& (csMask ^^^ 0xFF)) d, .sendImmediate] ++
   fOps ++
   [.setGpioLower (v ||| csMask) d, .sendImmediate],
   fRes)

/-- Pin number with bank (`enum Pin` in `gpiosbb.rs`). -/
inductive Pin
  | lower (idx : Nat)
  | upper (idx : Nat)
deriving DecidableEq, Repr

/-- One GPIO bank of the bit-bang session (`struct GpioByte`):
direction mask, value mask, and the pin-ownership table. -/
structure GpioByte where
  direction : Nat
  value : Nat
  pins : List (Option PinUse)
deriving DecidableEq, Repr

/-- Bit-bang session state (`struct FtInnerSbb` in `fthalsbb.rs`, minus the
device handle, which is modelled by `SbbChip`). -/
structure FtInnerSbb where
  lower : GpioByte
  upper : GpioByte
deriving DecidableEq, Repr

/-- Embedding of `FtInnerSbb::allocate_pin_any` (`fthalsbb.rs` 62–76).  Both
failure modes are panics in the source; a panic unwinds before any field is
assigned, so the state is returned unchanged alongside the error. -/
def allocate_pin_any (s : FtInnerSbb) (pin : Pin) (purpose : PinUse) :
    Except String Unit × FtInnerSbb :=
  match pin with
  | .lower idx =>
    if idx < 8 then
      match s.lower.pins.getD idx none with
      | some _ => (.error "pin is already allocated", s)
      | none =>
        (.ok (),
         { s with lower :=
            { s.lower with pins := s.lower.pins.set idx (some purpose) } })
    else (.error "pin index is out of range 0 - 7", s)
  | .upper idx =>
    if idx < 8 then
      match s.upper.pins.getD idx none with
      | some _ => (.error "pin is already allocated", s)
      | none =>
        (.ok (),
         { s with upper :=
            { s.upper with pins := s.upper.pins.set idx (some purpose) } })
    else (.error "pin index is out of range 0 - 7", s)

/-- The chip in synchronous bit-bang mode, per the FT4232H data sheet
behaviour quoted in `fthalsbb.rs`: `pins` is the byte currently driven on the
parallel port, `fifo` the USB TX FIFO of response bytes.  For every byte
written, the chip samples the pins *before* applying the byte — the one-byte
read lag. -/
structure SbbChip where
  pins : Nat
  fifo : List Nat
deriving DecidableEq, Repr

/-- One byte arriving at the chip (`write_all` of one byte in SyncBB mode):
the current pin state is queued as a response, then the byte is applied. -/
def sbbChipWrite (c : SbbChip) (b : Nat) : SbbChip :=
  ⟨b, c.fifo ++ [c.pins]⟩

/-- `read_to_end` on the chip: every queued response byte is drained. -/
def sbbChipReadToEnd (c : SbbChip) : SbbChip × List Nat :=
  (⟨c.pins, []⟩, c.fifo)

/-- Bit-bang session plus the modelled chip. -/
structure SbbWorld where
  inner : FtInnerSbb
  chip : SbbChip
deriving DecidableEq, Repr

/-- World right after `FtHalSbb::init` (`fthalsbb.rs` 161–207): both banks
zeroed with no allocations, the chip's read buffer purged
(`read_to_end` of stray bytes), pins at the power-up value `p0`. -/
def sbbInitWorld (p0 : Nat) : SbbWorld :=
  ⟨⟨⟨0, 0, List.replicate 8 none⟩, ⟨0, 0, List.replicate 8 none⟩⟩, ⟨p0, []⟩⟩

/-- Embedding of `OutputPinSbb::set` (`gpiosbb.rs` 68–97) for a lower-bank
pin with mask `1 << idx`: update the stored value byte, drain (and discard)
the chip's response buffer, then write the new value byte. -/
def sbbSet (w : SbbWorld) (idx : Nat) (state : Bool) : SbbWorld :=
  let mask := 1 <<< idx
  let value := if state then w.inner.lower.value ||| mask
               else w.inner.lower.value &&& (mask ^^^ 0xFF)
  let c1 := (sbbChipReadToEnd w.chip).1
  ⟨{ w.inner with lower := { w.inner.lower with value := value } },
   sbbChipWrite c1 value⟩

/-- Embedding of `InputPinSbb::get` (`gpiosbb.rs` 183–213) for a lower-bank
pin with mask `1 << idx`: re-transmit the stored output byte, drain the
response buffer, take its last byte as `pin_states`
(`read_bytes.last().unwrap()` panics when the buffer is empty — `none`
here), and return `(pin_states & mask) != 0`.  The sampled `pin_states` byte
is returned alongside the boolean. -/
def sbbGet (w : SbbWorld) (idx : Nat) : Option (SbbWorld × Nat × Bool) :=
  let mask := 1 <<< idx
  let c1 := sbbChipWrite w.chip w.inner.lower.value
  let rd := sbbChipReadToEnd c1
  match rd.2.getLast? with
  | none => none
  | some pin_states =>
    some (⟨w.inner, rd.1⟩, pin_states, (pin_states &&& mask) != 0)

/-- Run a sequence of output writes: each element `(idx, state)` is one
`OutputPinSbb::set` call. -/
def sbbRunSets (w : SbbWorld) : List (Nat × Bool) → SbbWorld
  | [] => w
  | (idx, st) :: rest => sbbRunSets (sbbSet w idx st) rest

/-- The value byte stored in the lower bank after a sequence of set calls:
the last-written output byte `w(i-1)` of the spec. -/
def sbbValAfter (v : Nat) : List (Nat × Bool) → Nat
  | [] => v
  | (idx, st) :: rest =>
    sbbValAfter (if st then v ||| (1 <<< idx) else v &&& ((1 <<< idx) ^^^ 0xFF))
      rest

/-- The successive lower-bank output bytes `w0, w1, w2, ...` produced by a
sequence of `OutputPinSbb::set` calls starting from stored value `v`: each
element `(idx, state)` contributes the byte obtained by setting or clearing
bit `idx` of the previous byte. -/
def sbbWrittenBytes (v : Nat) : List (Nat × Bool) → List Nat
  | [] => []
  | (idx, st) :: rest =>
    let v2 := if st then v ||| (1 <<< idx) else v &&& ((1 <<< idx) ^^^ 0xFF)
    v2 :: sbbWrittenBytes v2 rest

/-- Alternate each `OutputPinSbb::set` call with one `InputPinSbb::get` call
on input pin `idxG` and collect the `pin_states` byte sampled by each get;
`none` if some get hit the `read_bytes.last().unwrap()` panic. -/
def sbbPairedRun (idxG : Nat) : SbbWorld → List (Nat × Bool) →
    Option (List Nat)
  | _, [] => some []
  | w, (idx, st) :: rest =>
    let w1 := sbbSet w idx st
    match sbbGet w1 idxG with
    | none => none
    | some (w2, sample, _) =>
      (sbbPairedRun idxG w2 rest).map fun samples => sample :: samples

/-- `setGpioPreserves v d op` states that `op`, when it is a set-GPIO
command, keeps the value and direction bits of the non-I2C pins 3–7 equal to
those of the session's stored masks `v` and `d`. -/
def setGpioPreserves (v d : Nat) : MpsseOp → Prop
  | .setGpioLower v2 d2 => v2 &&& 0xF8 = v &&& 0xF8 ∧ d2 &&& 0xF8 = d &&& 0xF8
  | _ => True

section Helpers

theorem removeFlush_append (a b : List MpsseOp) :
    removeFlush (a ++ b) = removeFlush a ++ removeFlush b :=
  List.filter_append ..

theorem removeFlush_eq_self {l : List MpsseOp}
    (h : ∀ op ∈ l, op ≠ .sendImmediate) : removeFlush l = l := by
  rw [removeFlush, List.filter_eq_self]
  intro a ha
  simpa using h a ha

theorem removeFlush_si : removeFlush [.sendImmediate] = [] := rfl

theorem i2cStart_noFlush (v d m : Nat) :
    removeFlush (i2cStart v d m) = i2cStart v d m := by
  apply removeFlush_eq_self
  intro op hop
  simp only [i2cStart, List.mem_append, List.mem_replicate] at hop
  rcases hop with ⟨-, h⟩ | ⟨-, h⟩ <;> subst h <;> simp

theorem i2cSadR_noFlush (v d addr : Nat) :
    removeFlush (i2cSadR v d addr) = i2cSadR v d addr := by
  apply removeFlush_eq_self
  intro op hop
  simp only [i2cSadR, List.mem_cons, List.not_mem_nil, or_false] at hop
  rcases hop with h | h <;> subst h <;> simp

theorem i2cSadW_noFlush (v d addr : Nat) :
    removeFlush (i2cSadW v d addr) = i2cSadW v d addr := by
  apply removeFlush_eq_self
  intro op hop
  simp only [i2cSadW, List.mem_cons, List.not_mem_nil, or_false] at hop
  rcases hop with h | h <;> subst h <;> simp

theorem i2cSadRBare_noFlush (addr : Nat) :
    removeFlush (i2cSadRBare addr) = i2cSadRBare addr := by
  apply removeFlush_eq_self
  intro op hop
  simp only [i2cSadRBare, List.mem_cons, List.not_mem_nil, or_false] at hop
  subst hop
  simp

theorem i2cSak_noFlush (v d : Nat) :
    removeFlush (i2cSak v d) = i2cSak v d := by
  apply removeFlush_eq_self
  intro op hop
  simp only [i2cSak, List.mem_cons, List.not_mem_nil, or_false] at hop
  rcases hop with h | h <;> subst h <;> simp

theorem i2cReadLoop_noFlush (v d n : Nat) :
    removeFlush (i2cReadLoop v d n) = i2cReadLoop v d n := by
  apply removeFlush_eq_self
  intro op hop
  simp only [i2cReadLoop, List.mem_flatMap, List.mem_range] at hop
  obtain ⟨idx, -, hmem⟩ := hop
  split at hmem <;>
    · simp only [List.cons_append, List.nil_append, List.mem_cons,
        List.not_mem_nil, or_false] at hmem
      rcases hmem with h | h | h | h <;> subst h <;> simp

theorem i2cWriteByteChunk_noFlush (v d b : Nat) :
    removeFlush (i2cWriteByteChunk v d b) = i2cWriteByteChunk v d b := by
  apply removeFlush_eq_self
  intro op hop
  simp only [i2cWriteByteChunk, List.mem_cons, List.not_mem_nil,
    or_false] at hop
  rcases hop with h | h | h | h <;> subst h <;> simp

theorem i2cStop_noFlush (v d m : Nat) :
    removeFlush (i2cStop v d m) = i2cStop v d m := by
  apply removeFlush_eq_self
  intro op hop
  simp only [i2cStop, List.mem_append, List.mem_replicate] at hop
  rcases hop with (⟨-, h⟩ | ⟨-, h⟩) | ⟨-, h⟩ <;> subst h <;> simp

theorem i2cRepStart_noFlush (v d m : Nat) :
    removeFlush (i2cRepStart v d m) = i2cRepStart v d m := by
  apply removeFlush_eq_self
  intro op hop
  simp only [i2cRepStart, List.mem_append, List.mem_replicate] at hop
  rcases hop with (⟨-, h⟩ | ⟨-, h⟩) | ⟨-, h⟩ <;> subst h <;> simp

theorem i2cIdle_noFlush (v d : Nat) :
    removeFlush (i2cIdle v d) = i2cIdle v d := by
  apply removeFlush_eq_self
  intro op hop
  simp only [i2cIdle, List.mem_cons, List.not_mem_nil, or_false] at hop
  subst hop
  simp

theorem i2cStartW_eq (v d m : Nat) : i2cStartW v d m = i2cStart v d m := by
  unfold i2cStartW i2cStart
  rw [Nat.lor_comm (SCL ||| SDA) v, ← Nat.lor_assoc, Nat.lor_comm SCL v]

end Helpers

/-- Claim C4 — for every 8-bit sampled ACK value `va`, the check
`(ack_buf[0] & 0b1) != 0x00` used by every I2C method reports NAK exactly
when bit 0 of `va` is 1 and ACK exactly when bit 0 is 0, independent of the
upper 7 bits (`sakDecode va` only depends on `va % 2`). -/
theorem i2c_ack_decoding (va : Nat) :
    (sakDecode va = true ↔ va &&& 1 = 1) ∧
    (sakDecode va = false ↔ va &&& 1 = 0) ∧
    sakDecode va = sakDecode (va % 2) := by
  have h1 : va &&& 1 = va % 2 := Nat.and_one_is_mod va
  have h2 : va % 2 &&& 1 = va % 2 := by
    rw [Nat.and_one_is_mod, Nat.mod_mod_of_dvd _ (by norm_num)]
  rcases Nat.mod_two_eq_zero_or_one va with h | h <;>
    simp [sakDecode, h1, h2, h]

section Helpers2

theorem flatMap_congr_on {α β : Type} (l : List α) (f g : α → List β)
    (h : ∀ a ∈ l, f a = g a) : l.flatMap f = l.flatMap g := by
  induction l with
  | nil => rfl
  | cons a rest ih =>
    simp only [List.flatMap_cons, h a (by simp)]
    rw [ih fun a ha => h a (by simp [ha])]

/-- Unrolling of the payload-read loop for a non-empty buffer: `n - 1`
MAK chunks followed by one NMAK chunk. -/
theorem i2cReadLoop_unroll (v d n : Nat) (hn : 1 ≤ n) :
    i2cReadLoop v d n =
      ((List.range (n - 1)).flatMap fun _ =>
        [.setGpioLower v (SCL ||| d), .clockBitsIn BITS_IN 8,
         .setGpioLower v (SCL ||| SDA ||| d),
         .clockBitsOut BITS_OUT 0x00 1]) ++
      [.setGpioLower v (SCL ||| d), .clockBitsIn BITS_IN 8,
       .setGpioLower v (SCL ||| SDA ||| d),
       .clockBitsOut BITS_OUT 0x80 1] := by
  obtain ⟨k, rfl⟩ : ∃ k, n = k + 1 := ⟨n - 1, by omega⟩
  rw [i2cReadLoop, List.range_succ, List.flatMap_append]
  have hlast : k + 1 - 1 = k := by omega
  congr 1
  · apply flatMap_congr_on
    intro idx hidx
    have : idx < k := List.mem_range.mp hidx
    rw [if_neg (by omega)]
    rfl
  · simp [hlast]

end Helpers2

/-- Claim C7 — for every I2C read of an `n`-byte buffer (`n ≥ 1`), the
payload loop shared by `read_fast`, `read_slow`, `write_read_fast` and
`write_read_slow` clocks in 8 bits per byte; after each of the first `n - 1`
bytes it clocks out exactly one bit from the value `0x00` (master-ACK), and
after the `n`-th byte it clocks out exactly one bit from the value `0x80`
(master-NAK). -/
theorem i2c_read_ack_structure (v d n : Nat) (hn : 1 ≤ n) :
    i2cReadLoop v d n =
      ((List.range (n - 1)).flatMap fun _ =>
        [.setGpioLower v (SCL ||| d), .clockBitsIn BITS_IN 8,
         .setGpioLower v (SCL ||| SDA ||| d),
         .clockBitsOut BITS_OUT 0x00 1]) ++
      [.setGpioLower v (SCL ||| d), .clockBitsIn BITS_IN 8,
       .setGpioLower v (SCL ||| SDA ||| d),
       .clockBitsOut BITS_OUT 0x80 1] :=
  i2cReadLoop_unroll v d n hn

/-- Witness for C7 at the concrete buffer length 3. -/
theorem i2c_read_ack_structure_witness :
    i2cReadLoop 0 0 3 =
      ((List.range 2).flatMap fun _ =>
        [.setGpioLower 0 (SCL ||| 0), .clockBitsIn BITS_IN 8,
         .setGpioLower 0 (SCL ||| SDA ||| 0),
         .clockBitsOut BITS_OUT 0x00 1]) ++
      [.setGpioLower 0 (SCL ||| 0), .clockBitsIn BITS_IN 8,
       .setGpioLower 0 (SCL ||| SDA ||| 0),
       .clockBitsOut BITS_OUT 0x80 1] :=
  i2c_read_ack_structure 0 0 3 (by decide)

section Helpers3

theorem removeFlush_nil : removeFlush [] = [] := rfl

theorem removeFlush_cons_si (l : List MpsseOp) :
    removeFlush (.sendImmediate :: l) = removeFlush l := by
  simp [removeFlush]

theorem flatMapChunk_noFlush (v d : Nat) (bytes : List Nat) :
    removeFlush (bytes.flatMap fun b => i2cWriteByteChunk v d b) =
      bytes.flatMap fun b => i2cWriteByteChunk v d b := by
  induction bytes with
  | nil => rfl
  | cons b rest ih =>
    rw [List.flatMap_cons, removeFlush_append, ih, i2cWriteByteChunk_noFlush]

/-- Flattening of the `write_slow` per-byte loop when every ACK read back
indicates Ack: all chunks are issued, the transaction succeeds, and modulo
flush markers the stream is the write chunks followed by SP and Idle. -/
theorem writeSlowLoop_spec (v d m : Nat) (resp : Nat → Nat) (total : Nat)
    (hack : ∀ k, k < total + 1 → sakDecode (resp k) = false) :
    ∀ (bytes : List Nat) (idx : Nat), bytes ≠ [] →
      idx + bytes.length = total →
      removeFlush (writeSlowLoop v d m total resp idx bytes).sent =
        (bytes.flatMap fun b => i2cWriteByteChunk v d b) ++
        i2cStop v d m ++ i2cIdle v d ∧
      (writeSlowLoop v d m total resp idx bytes).outcome = .ok () := by
  intro bytes
  induction bytes with
  | nil => exact fun idx h => absurd rfl h
  | cons b rest ih =>
    intro idx hne hlen
    simp only [List.length_cons] at hlen
    have hthis : sakDecode (resp (idx + 1)) = false := hack _ (by omega)
    rcases eq_or_ne rest [] with hr | hr
    · subst hr
      have hidx : idx = total - 1 := by simp at hlen; omega
      simp only [writeSlowLoop, hthis, Bool.false_eq_true, if_false,
        if_pos hidx]
      constructor
      · simp [removeFlush_append, removeFlush_si, removeFlush_nil,
          removeFlush_cons_si, i2cWriteByteChunk_noFlush, i2cStop_noFlush,
          i2cIdle_noFlush]
      · trivial
    · have hrl : 0 < rest.length := List.length_pos.mpr hr
      have hidx : idx ≠ total - 1 := by omega
      simp only [writeSlowLoop, hthis, Bool.false_eq_true, if_false,
        if_neg hidx]
      obtain ⟨ihs, iho⟩ := ih (idx + 1) hr (by omega)
      constructor
      · simp [removeFlush_append, removeFlush_si, removeFlush_nil,
          removeFlush_cons_si, i2cWriteByteChunk_noFlush, ihs]
      · exact iho

/-- Flattening of the `write_read_slow` per-byte loop when every ACK read
back indicates Ack. -/
theorem writeReadSlowLoop_spec (v d : Nat) (resp : Nat → Nat) :
    ∀ (bytes : List Nat) (idx : Nat),
      (∀ k, idx < k → k ≤ idx + bytes.length → sakDecode (resp k) = false) →
      removeFlush (writeReadSlowLoop v d resp idx bytes).sent =
        (bytes.flatMap fun b => i2cWriteByteChunk v d b) ∧
      (writeReadSlowLoop v d resp idx bytes).outcome = .ok () := by
  intro bytes
  induction bytes with
  | nil => exact fun idx _ => ⟨rfl, rfl⟩
  | cons b rest ih =>
    intro idx hack
    have hthis : sakDecode (resp (idx + 1)) = false :=
      hack _ (by omega) (by simp)
    simp only [writeReadSlowLoop, hthis, Bool.false_eq_true, if_false]
    obtain ⟨ihs, iho⟩ := ih (idx + 1)
      (fun k hk1 hk2 => hack k (by omega) (by simp at hk2 ⊢; omega))
    constructor
    · simp [removeFlush_append, removeFlush_si, removeFlush_nil,
        removeFlush_cons_si, i2cWriteByteChunk_noFlush, ihs]
    · exact iho

end Helpers3

/-- Claim C1 — for every I2C transaction with the same parameters (stored
GPIO masks `v`/`d`, margin `m`, address, payload, buffer length) in which
every ACK bit read back indicates Ack, the MPSSE operation stream of the
fast strategy equals the concatenation, in issuance order, of the streams of
the slow strategy, except for the number and placement of the
`send_immediate` flush markers. -/
theorem i2c_fast_slow_same_stream (v d m addr n : Nat) (bytes : List Nat)
    (resp : Nat → Nat) :
    (sakDecode (resp 0) = false →
      removeFlush (readSlowRun v d m addr n resp).sent =
      removeFlush (readFastRun v d m addr n resp).sent) ∧
    ((∀ k, k < bytes.length + 1 → sakDecode (resp k) = false) →
      removeFlush (writeSlowRun v d m addr bytes resp).sent =
      removeFlush (writeFastRun v d m addr bytes resp).sent) ∧
    ((∀ k, k < bytes.length + 2 → sakDecode (resp k) = false) →
      removeFlush (writeReadSlowRun v d m addr bytes n resp).sent =
      removeFlush (writeReadFastRun v d m addr bytes n resp).sent) := by
  refine ⟨?_, ?_, ?_⟩
  · intro hack
    rcases eq_or_ne n 0 with hn | hn
    · simp [readSlowRun, readFastRun, hn]
    · simp only [readSlowRun, readFastRun, if_neg hn, hack,
        Bool.false_eq_true, if_false]
      simp [removeFlush_append, removeFlush_si, removeFlush_nil,
        removeFlush_cons_si, i2cStart_noFlush, i2cSadR_noFlush,
        i2cSak_noFlush, i2cReadLoop_noFlush, i2cStop_noFlush,
        i2cIdle_noFlush]
  · intro hack
    rcases eq_or_ne bytes [] with hb | hb
    · simp [writeSlowRun, writeFastRun, hb]
    · have hack0 : sakDecode (resp 0) = false := hack 0 (by omega)
      obtain ⟨hs, -⟩ := writeSlowLoop_spec v d m resp bytes.length
        (fun k hk => hack k hk) bytes 0 hb (by omega)
      simp only [writeSlowRun, writeFastRun, if_neg hb, hack0,
        Bool.false_eq_true, if_false]
      split <;>
        simp [removeFlush_append, removeFlush_si, removeFlush_nil,
          removeFlush_cons_si, hs, i2cStartW_eq, i2cStart_noFlush,
          i2cSadW_noFlush, i2cSak_noFlush, i2cStop_noFlush, i2cIdle_noFlush,
          flatMapChunk_noFlush]
  · intro hack
    rcases eq_or_ne bytes [] with hb | hb
    · simp [writeReadSlowRun, writeReadFastRun, hb]
    · rcases eq_or_ne n 0 with hn | hn
      · simp [writeReadSlowRun, writeReadFastRun, hb, hn]
      · have hack0 : sakDecode (resp 0) = false := hack 0 (by omega)
        have hacksr : sakDecode (resp (bytes.length + 1)) = false :=
          hack _ (by omega)
        obtain ⟨hs, ho⟩ := writeReadSlowLoop_spec v d resp bytes 0
          (fun k hk1 hk2 => hack k (by omega))
        simp only [writeReadSlowRun, writeReadFastRun, if_neg hb, if_neg hn,
          hack0, hacksr, Bool.false_eq_true, if_false, ho]
        split <;>
          simp [removeFlush_append, removeFlush_si, removeFlush_nil,
            removeFlush_cons_si, hs, i2cStart_noFlush, i2cSadW_noFlush,
            i2cSak_noFlush, i2cRepStart_noFlush, i2cSadRBare_noFlush,
            i2cReadLoop_noFlush, i2cStop_noFlush, i2cIdle_noFlush,
            flatMapChunk_noFlush]

/-- Witness for C1 at concrete parameters: masks 0, margin 1, address
`0x50`, payload `[0xDE]`, a 1-byte read buffer, all ACKs Ack. -/
theorem i2c_fast_slow_same_stream_witness :
    removeFlush (readSlowRun 0 0 1 0x50 1 (fun _ => 0)).sent =
      removeFlush (readFastRun 0 0 1 0x50 1 (fun _ => 0)).sent ∧
    removeFlush (writeSlowRun 0 0 1 0x50 [0xDE] (fun _ => 0)).sent =
      removeFlush (writeFastRun 0 0 1 0x50 [0xDE] (fun _ => 0)).sent ∧
    removeFlush (writeReadSlowRun 0 0 1 0x50 [0xDE] 1 (fun _ => 0)).sent =
      removeFlush (writeReadFastRun 0 0 1 0x50 [0xDE] 1 (fun _ => 0)).sent := by
  have h := i2c_fast_slow_same_stream 0 0 1 0x50 1 [0xDE] (fun _ => 0)
  exact ⟨h.1 (by decide), h.2.1 (by decide), h.2.2 (by decide)⟩

/-- Counterexample to claim C2 as stated.  An SPI `write` with a zero-length
buffer does not fail with the malformed-parameter error
(`ErrorKind::InvalidParams`) before any bus operation: it succeeds, and it
builds and sends a command batch.  Moreover an I2C read with a zero-length
buffer fails by assertion panic, not by returning the malformed-parameter
error. -/
theorem empty_buffer_claim_cex :
    (spiWrite polarityDefault [] ⟨[]⟩).outcome = .ok () ∧
    (spiWrite polarityDefault [] ⟨[]⟩).sent ≠ [] ∧
    (readFastRun 0 0 3 0x50 0 (fun _ => 0)).outcome =
      .panicked "buffer must be a non-empty slice" := by
  refine ⟨rfl, ?_, rfl⟩
  decide

/-- Claim C2, amended — every I2C read/write/write_read call with a
zero-length buffer or payload fails by assertion panic before any command
batch is built and before any bus operation is attempted (nothing is sent),
while the SPI `write` and `transfer` calls perform no emptiness check at
all: with a zero-length buffer they build the command batch, send it, and
succeed. -/
theorem empty_buffer_handling (v d m addr n b2 : Nat) (bs2 : List Nat)
    (resp : Nat → Nat) (pol : Polarity) (chip : SpiChipBuf) (readLen : Nat)
    (miso : Nat → Nat) :
    (readFastRun v d m addr 0 resp =
      ⟨[], .panicked "buffer must be a non-empty slice"⟩) ∧
    (readSlowRun v d m addr 0 resp =
      ⟨[], .panicked "buffer must be a non-empty slice"⟩) ∧
    (writeFastRun v d m addr [] resp =
      ⟨[], .panicked "bytes must be a non-empty slice"⟩) ∧
    (writeSlowRun v d m addr [] resp =
      ⟨[], .panicked "bytes must be a non-empty slice"⟩) ∧
    (writeReadFastRun v d m addr [] n resp =
      ⟨[], .panicked "bytes must be a non-empty slice"⟩) ∧
    (writeReadFastRun v d m addr (b2 :: bs2) 0 resp =
      ⟨[], .panicked "buffer must be a non-empty slice"⟩) ∧
    (writeReadSlowRun v d m addr [] n resp =
      ⟨[], .panicked "bytes must be a non-empty slice"⟩) ∧
    (writeReadSlowRun v d m addr (b2 :: bs2) 0 resp =
      ⟨[], .panicked "buffer must be a non-empty slice"⟩) ∧
    (spiWrite pol [] chip =
      ⟨[.clockDataOut pol.clk_out [], .sendImmediate], [], .ok (), chip⟩) ∧
    (spiTransfer pol readLen [] miso chip).outcome = .ok () ∧
    (spiTransfer pol readLen [] miso chip).sent =
      [.clockData pol.clk [], .sendImmediate] := by
  refine ⟨by simp [readFastRun], by simp [readSlowRun],
    by simp [writeFastRun], by simp [writeSlowRun],
    by simp [writeReadFastRun], by simp [writeReadFastRun],
    by simp [writeReadSlowRun], by simp [writeReadSlowRun],
    rfl, rfl, rfl⟩

/-- Counterexample to claim C3 as stated.  Transferring
`write = [0xDE, 0xAD, 0xBE, 0xEF]` through a loopback with a 2-byte read
buffer captures `[0xDE, 0xAD]`, but the remaining two response bytes are
*not* drained: they stay pending in the chip's internal buffer, and a
repeated identical call then captures the two stale bytes `[0xBE, 0xEF]`
while the buffer stays two bytes behind. -/
theorem spi_transfer_drain_cex :
    (spiTransfer polarityDefault 2 [0xDE, 0xAD, 0xBE, 0xEF]
      (fun i => [0xDE, 0xAD, 0xBE, 0xEF].getD i 0) ⟨[]⟩).captured =
      [0xDE, 0xAD] ∧
    (spiTransfer polarityDefault 2 [0xDE, 0xAD, 0xBE, 0xEF]
      (fun i => [0xDE, 0xAD, 0xBE, 0xEF].getD i 0) ⟨[]⟩).chip.pending ≠
      [] ∧
    (spiTransfer polarityDefault 2 [0xDE, 0xAD, 0xBE, 0xEF]
      (fun i => [0xDE, 0xAD, 0xBE, 0xEF].getD i 0) ⟨[0xBE, 0xEF]⟩).captured =
      [0xBE, 0xEF] := by
  refine ⟨by decide, by decide, by decide⟩

/-- Claim C3, amended — for every SPI `transfer(read, write)` call with
`read.len() ≤ write.len()`, exactly `read.len()` response bytes are captured
into the read buffer and all of `write` is clocked out in one `clock_data`
command, but the remaining `write.len() - read.len()` response bytes are not
drained: they remain pending in the chip's internal response buffer, whose
occupancy therefore grows by exactly that amount on every such call. -/
theorem spi_transfer_short_read (pol : Polarity) (readLen : Nat)
    (write : List Nat) (miso : Nat → Nat) (chip : SpiChipBuf)
    (h : readLen ≤ write.length) :
    (spiTransfer pol readLen write miso chip).captured.length = readLen ∧
    (spiTransfer pol readLen write miso chip).sent =
      [.clockData pol.clk write, .sendImmediate] ∧
    (spiTransfer pol readLen write miso chip).chip.pending.length =
      chip.pending.length + write.length - readLen := by
  refine ⟨?_, rfl, ?_⟩
  · simp only [spiTransfer, List.length_take, List.length_append,
      List.length_map, List.length_range]
    omega
  · simp only [spiTransfer, List.length_drop, List.length_append,
      List.length_map, List.length_range]

/-- Witness for C3 (amended) at `write = [0xDE, 0xAD, 0xBE, 0xEF]` and a
2-byte read buffer. -/
theorem spi_transfer_short_read_witness :
    (spiTransfer polarityDefault 2 [0xDE, 0xAD, 0xBE, 0xEF]
      (fun _ => 0) ⟨[]⟩).captured.length = 2 ∧
    (spiTransfer polarityDefault 2 [0xDE, 0xAD, 0xBE, 0xEF]
      (fun _ => 0) ⟨[]⟩).sent =
      [.clockData polarityDefault.clk [0xDE, 0xAD, 0xBE, 0xEF],
       .sendImmediate] ∧
    (spiTransfer polarityDefault 2 [0xDE, 0xAD, 0xBE, 0xEF]
      (fun _ => 0) ⟨[]⟩).chip.pending.length = 0 + 4 - 2 :=
  spi_transfer_short_read polarityDefault 2 [0xDE, 0xAD, 0xBE, 0xEF]
    (fun _ => 0) ⟨[]⟩ (by decide)

/-- Claim C5 — for every pin index and every pair of purposes, allocating a
pin that a prior successful allocation already owns fails fatally (a panic
in the source, an error here), and the failure leaves the direction mask,
the value mask and the pin-ownership table unchanged: the state returned
with the error is exactly the state before the call.  This holds for the
MPSSE registry (`FtInner::allocate_pin`) and for both banks of the bit-bang
registry (`FtInnerSbb::allocate_pin_any`).  `allocate_pin` issues no MPSSE
operation at all, so the failure precedes any bus activity. -/
theorem allocate_pin_conflict
    (s : FtInner) (i : Nat) (x y : PinUse) (s1 : FtInner)
    (hlen : s.pins.length = 8)
    (h1 : allocate_pin s i y = (.ok (), s1))
    (t : FtInnerSbb) (p : Pin) (u w : PinUse) (t1 : FtInnerSbb)
    (hlenL : t.lower.pins.length = 8) (hlenU : t.upper.pins.length = 8)
    (h2 : allocate_pin_any t p w = (.ok (), t1)) :
    allocate_pin s1 i x = (.error "pin is already allocated", s1) ∧
    allocate_pin_any t1 p u = (.error "pin is already allocated", t1) := by
  constructor
  · unfold allocate_pin at h1 ⊢
    by_cases hi : i < 8
    · rw [if_pos hi] at h1 ⊢
      cases hgd : s.pins.getD i none with
      | some u2 => rw [hgd] at h1; exact absurd h1 (by simp)
      | none =>
        rw [hgd] at h1
        simp only [Prod.mk.injEq, true_and] at h1
        subst h1
        have hget : (s.pins.set i (some y))[i]? = some (some y) := by
          simp [List.getElem?_set_self, hlen ▸ hi]
        simp [List.getD, hget]
    · rw [if_neg hi] at h1
      exact absurd h1 (by simp)
  · cases p with
    | lower idx =>
      simp only [allocate_pin_any] at h2 ⊢
      by_cases hi : idx < 8
      · rw [if_pos hi] at h2 ⊢
        cases hgd : t.lower.pins.getD idx none with
        | some u2 => rw [hgd] at h2; exact absurd h2 (by simp)
        | none =>
          rw [hgd] at h2
          simp only [Prod.mk.injEq, true_and] at h2
          subst h2
          have hget : (t.lower.pins.set idx (some w))[idx]? =
              some (some w) := by
            simp [List.getElem?_set_self, hlenL ▸ hi]
          simp [List.getD, hget]
      · rw [if_neg hi] at h2
        exact absurd h2 (by simp)
    | upper idx =>
      simp only [allocate_pin_any] at h2 ⊢
      by_cases hi : idx < 8
      · rw [if_pos hi] at h2 ⊢
        cases hgd : t.upper.pins.getD idx none with
        | some u2 => rw [hgd] at h2; exact absurd h2 (by simp)
        | none =>
          rw [hgd] at h2
          simp only [Prod.mk.injEq, true_and] at h2
          subst h2
          have hget : (t.upper.pins.set idx (some w))[idx]? =
              some (some w) := by
            simp [List.getElem?_set_self, hlenU ▸ hi]
          simp [List.getD, hget]
      · rw [if_neg hi] at h2
        exact absurd h2 (by simp)

/-- Witness for C5: pin 3 first allocated as an output, then requested as an
input, in both registries. -/
theorem allocate_pin_conflict_witness :
    allocate_pin ⟨0, 0, List.replicate 3 none ++ some PinUse.output ::
        List.replicate 4 none⟩ 3 .input =
      (.error "pin is already allocated",
       ⟨0, 0, List.replicate 3 none ++ some PinUse.output ::
        List.replicate 4 none⟩) ∧
    allocate_pin_any
      ⟨⟨0, 0, List.replicate 3 none ++ some PinUse.output ::
          List.replicate 4 none⟩, ⟨0, 0, List.replicate 8 none⟩⟩
      (.lower 3) .input =
      (.error "pin is already allocated",
       ⟨⟨0, 0, List.replicate 3 none ++ some PinUse.output ::
          List.replicate 4 none⟩, ⟨0, 0, List.replicate 8 none⟩⟩) := by
  have h := allocate_pin_conflict
    ⟨0, 0, List.replicate 8 none⟩ 3 .input .output
    ⟨0, 0, List.replicate 3 none ++ some PinUse.output ::
      List.replicate 4 none⟩
    (by decide) (by decide)
    ⟨⟨0, 0, List.replicate 8 none⟩, ⟨0, 0, List.replicate 8 none⟩⟩
    (.lower 3) .input .output
    ⟨⟨0, 0, List.replicate 3 none ++ some PinUse.output ::
      List.replicate 4 none⟩, ⟨0, 0, List.replicate 8 none⟩⟩
    (by decide) (by decide) (by decide)
  exact h

section Helpers4

/-- After any `OutputPinSbb::set`, the byte driven on the chip's pins equals
the session's stored output byte. -/
theorem sbbSet_pins_eq (w : SbbWorld) (idx : Nat) (st : Bool) :
    (sbbSet w idx st).chip.pins = (sbbSet w idx st).inner.lower.value := by
  simp [sbbSet, sbbChipWrite, sbbChipReadToEnd]

/-- When the chip's pins already show the stored output byte (which every
set and every get establishes), a get re-transmits that byte and samples
exactly it. -/
theorem sbbGet_of_pins_eq (w : SbbWorld) (idx : Nat)
    (h : w.chip.pins = w.inner.lower.value) :
    sbbGet w idx =
      some (⟨w.inner, ⟨w.inner.lower.value, []⟩⟩, w.inner.lower.value,
        (w.inner.lower.value &&& (1 <<< idx)) != 0) := by
  simp [sbbGet, sbbChipWrite, sbbChipReadToEnd, h, List.getLast?_append]

end Helpers4

/-- Claim C6 — in the synchronous bit-bang fallback: (1) the very first
`InputPinSbb::get` after initialization samples the device's power-up idle
byte `p0`, not a byte written by this session; (2) every get first
re-transmits the last-written output byte (the stored value), leaving the
chip pins driven with exactly that byte and the session unchanged; (3) with
output writes `w0, w1, w2, ...` issued in order and a get after each write,
the i-th get samples `w(i-1)`: the sample list of the paired run equals the
list of successively written bytes. -/
theorem sbb_one_byte_lag (p0 idxG : Nat) (w : SbbWorld)
    (sets : List (Nat × Bool)) :
    (sbbGet (sbbInitWorld p0) idxG =
      some (⟨(sbbInitWorld p0).inner, ⟨0, []⟩⟩, p0,
        (p0 &&& (1 <<< idxG)) != 0)) ∧
    (∀ w2 sample b, sbbGet w idxG = some (w2, sample, b) →
      w2.chip.pins = w.inner.lower.value ∧ w2.inner = w.inner) ∧
    sbbPairedRun idxG w sets =
      some (sbbWrittenBytes w.inner.lower.value sets) := by
  refine ⟨?_, ?_, ?_⟩
  · rfl
  · intro w2 sample b hget
    simp [sbbGet, sbbChipWrite, sbbChipReadToEnd, List.getLast?_append,
      Prod.mk.injEq] at hget
    obtain ⟨hw2, -, -⟩ := hget
    subst hw2
    exact ⟨rfl, rfl⟩
  · induction sets generalizing w with
    | nil => rfl
    | cons e rest ih =>
      obtain ⟨idx, st⟩ := e
      have hpins := sbbSet_pins_eq w idx st
      rw [sbbPairedRun, sbbGet_of_pins_eq _ idxG hpins]
      simp [ih, sbbWrittenBytes, sbbSet]

/-- Witness for C6 at power-up value `0xFF`, one write of bit 0, one read of
input pin 2. -/
theorem sbb_one_byte_lag_witness :
    (sbbGet (sbbInitWorld 0xFF) 2 =
      some (⟨(sbbInitWorld 0xFF).inner, ⟨0, []⟩⟩, 0xFF,
        (0xFF &&& (1 <<< 2)) != 0)) ∧
    ((⟨(sbbSet (sbbInitWorld 0xFF) 0 true).inner, ⟨1, []⟩⟩ :
        SbbWorld).chip.pins =
      (sbbSet (sbbInitWorld 0xFF) 0 true).inner.lower.value) ∧
    sbbPairedRun 2 (sbbSet (sbbInitWorld 0xFF) 0 true) [(1, true)] =
      some (sbbWrittenBytes
        (sbbSet (sbbInitWorld 0xFF) 0 true).inner.lower.value [(1, true)]) := by
  have h := sbb_one_byte_lag 0xFF 2 (sbbSet (sbbInitWorld 0xFF) 0 true)
    [(1, true)]
  refine ⟨h.1, ?_, h.2.2⟩
  have h2 := h.2.1 ⟨(sbbSet (sbbInitWorld 0xFF) 0 true).inner, ⟨1, []⟩⟩ 1
    false (by decide)
  exact h2.1

section Helpers5

/-- From `d &&& 7 = 0`, both I2C line bits of `d` are clear. -/
theorem and_seven_clears (d : Nat) (hd : d &&& 0x07 = 0) :
    d &&& SCL = 0 ∧ d &&& SDA = 0 := by
  constructor
  · have h1 : d &&& 0x07 &&& 1 = 0 &&& 1 := by rw [hd]
    rw [Nat.and_assoc] at h1
    simpa [SCL] using h1
  · have h1 : d &&& 0x07 &&& 2 = 0 &&& 2 := by rw [hd]
    rw [Nat.and_assoc] at h1
    simpa [SDA] using h1

end Helpers5

/-- Counterexample to claim C8 as stated.  The STOP condition as the claim
describes it — raising the clock `m` times and then raising the data line
`m` times — is not what the SP section emits: the SP section additionally
begins by driving both lines low `m` times (here `m = 1`, masks 0). -/
theorem i2c_stop_claim_cex :
    i2cStop 0 0 1 ≠
      List.replicate 1 (.setGpioLower (0 ||| SCL) (SCL ||| SDA ||| 0)) ++
      List.replicate 1 (.setGpioLower (0 ||| SCL ||| SDA)
        (SCL ||| SDA ||| 0)) := by
  decide

/-- Claim C8, amended — for every margin `m` (set via `set_stop_start_len`,
whose field the setter stores verbatim; default 3 established by `I2c::new`),
the STOP section of an I2C transaction consists of driving clock and data
low `m` times, then raising the clock `m` times, then raising the data line
while the clock is high `m` times; after it, the bank is restored to the
stored `(value, direction)` masks, whose I2C direction bits are clear
(`direction &&& 7 = 0` after `I2c::new`), so both lines are released to the
idle/input configuration. -/
theorem i2c_stop_structure (v d m addr n : Nat) (resp : Nat → Nat)
    (hn : n ≠ 0) (hd : d &&& 0x07 = 0) :
    ((readFastRun v d m addr n resp).sent =
      i2cStart v d m ++ i2cSadR v d addr ++ i2cSak v d ++
      i2cReadLoop v d n ++
      (List.replicate m (.setGpioLower v (SCL ||| SDA ||| d)) ++
       List.replicate m (.setGpioLower (v ||| SCL) (SCL ||| SDA ||| d)) ++
       List.replicate m (.setGpioLower (v ||| SCL ||| SDA)
         (SCL ||| SDA ||| d))) ++
      [.setGpioLower v d, .sendImmediate]) ∧
    d &&& SCL = 0 ∧ d &&& SDA = 0 ∧
    (∀ s s4 h ops, i2cNew s = .ok (s4, h, ops) →
      h.start_stop_cmds = 3 ∧ s4.direction &&& 0x07 = 0) ∧
    (∀ h m2, (set_stop_start_len h m2).start_stop_cmds = m2) := by
  obtain ⟨hscl, hsda⟩ := and_seven_clears d hd
  refine ⟨?_, hscl, hsda, ?_, fun h m2 => rfl⟩
  · simp only [readFastRun, if_neg hn]
    split <;>
      simp [i2cStop, i2cIdle, List.append_assoc]
  · intro s s4 h ops hok
    unfold i2cNew at hok
    split at hok
    · exact absurd hok (by simp)
    · split at hok
      · exact absurd hok (by simp)
      · split at hok
        · exact absurd hok (by simp)
        · simp only [Except.ok.injEq, Prod.mk.injEq] at hok
          obtain ⟨hs4, hh, -⟩ := hok
          subst hs4
          subst hh
          refine ⟨rfl, ?_⟩
          rw [Nat.and_assoc, show (0xF8 : Nat) &&& 0x07 = 0 from by decide,
            Nat.and_zero]

/-- Witness for C8 (amended) at masks 0, margin 1, address `0x50`, 1-byte
read. -/
theorem i2c_stop_structure_witness :
    ((readFastRun 0 0 1 0x50 1 (fun _ => 0)).sent =
      i2cStart 0 0 1 ++ i2cSadR 0 0 0x50 ++ i2cSak 0 0 ++
      i2cReadLoop 0 0 1 ++
      (List.replicate 1 (.setGpioLower 0 (SCL ||| SDA ||| 0)) ++
       List.replicate 1 (.setGpioLower (0 ||| SCL) (SCL ||| SDA ||| 0)) ++
       List.replicate 1 (.setGpioLower (0 ||| SCL ||| SDA)
         (SCL ||| SDA ||| 0))) ++
      [.setGpioLower 0 0, .sendImmediate]) ∧
    (0 : Nat) &&& SCL = 0 ∧ (0 : Nat) &&& SDA = 0 ∧
    (∀ s s4 h ops, i2cNew s = .ok (s4, h, ops) →
      h.start_stop_cmds = 3 ∧ s4.direction &&& 0x07 = 0) ∧
    (∀ h m2, (set_stop_start_len h m2).start_stop_cmds = m2) :=
  i2c_stop_structure 0 0 1 0x50 1 (fun _ => 0) (by decide) (by decide)

section Helpers6

/-- Setting a bit and then masking by it yields the bit: the deassert
command drives the chip-select line high. -/
theorem lor_and_self (a b : Nat) : (a ||| b) &&& b = b := by
  apply Nat.eq_of_testBit_eq
  intro i
  rw [Nat.testBit_and, Nat.testBit_or]
  cases a.testBit i <;> cases hb : b.testBit i <;> simp [hb]

/-- Clearing a bit (by masking with its 8-bit complement) and then masking
by it yields zero: the assert command drives the chip-select line low. -/
theorem and_compl_and_self (v cs : Nat) (hcs : cs < 8) :
    (v &&& ((1 <<< cs) ^^^ 0xFF)) &&& (1 <<< cs) = 0 := by
  apply Nat.eq_of_testBit_eq
  intro i
  rw [Nat.zero_testBit, Nat.testBit_and, Nat.testBit_and, Nat.testBit_xor,
    Nat.one_shiftLeft, Nat.testBit_two_pow]
  rcases eq_or_ne cs i with rfl | hne
  · have h255 : (0xFF : Nat).testBit cs = true := by
      interval_cases cs <;> decide
    simp [h255]
  · simp [hne]

end Helpers6

/-- Claim C9 — for every `SpiDevice::transaction` call, abstracting the
closure by the bus operations it issues and its result: the stream sent
under the single mutex guard is exactly one chip-select assert command, then
the closure's operations, then one chip-select deassert command, with
nothing in between or after (the lock is held for the whole contiguous
sequence, so no other peripheral's command can interleave); the assert
command drives the chip-select bit low and the deassert command drives it
high; and the closure's result — including an error — is passed through
with the deassert still issued. -/
theorem spi_device_transaction_cs {R : Type} (csIdx v d : Nat)
    (fOps : List MpsseOp) (fRes : Except ErrorKind R) (hcs : csIdx < 8) :
    (spiDeviceTransaction csIdx v d fOps fRes).1 =
      [.setGpioLower (v &&& ((1 <<< csIdx) ^^^ 0xFF)) d, .sendImmediate] ++
      fOps ++
      [.setGpioLower (v ||| (1 <<< csIdx)) d, .sendImmediate] ∧
    (v &&& ((1 <<< csIdx) ^^^ 0xFF)) &&& (1 <<< csIdx) = 0 ∧
    (v ||| (1 <<< csIdx)) &&& (1 <<< csIdx) = 1 <<< csIdx ∧
    (spiDeviceTransaction csIdx v d fOps fRes).2 = fRes :=
  ⟨rfl, and_compl_and_self v csIdx hcs, lor_and_self v (1 <<< csIdx), rfl⟩

/-- Witness for C9: chip select on pin 3, all outputs previously high, a
one-write closure that fails — the deassert is still the last command. -/
theorem spi_device_transaction_cs_witness :
    (spiDeviceTransaction 3 0xFF 0xFB [.clockDataOut .msbNeg [0xDE]]
        (.error ErrorKind.i2cNoAck : Except ErrorKind Unit)).1 =
      [.setGpioLower (0xFF &&& ((1 <<< 3) ^^^ 0xFF)) 0xFB, .sendImmediate] ++
      [.clockDataOut .msbNeg [0xDE]] ++
      [.setGpioLower (0xFF ||| (1 <<< 3)) 0xFB, .sendImmediate] ∧
    (0xFF &&& ((1 <<< 3) ^^^ 0xFF)) &&& (1 <<< 3) = 0 ∧
    (0xFF ||| (1 <<< 3)) &&& ((1 : Nat) <<< 3) = 1 <<< 3 ∧
    (spiDeviceTransaction 3 0xFF 0xFB [.clockDataOut .msbNeg [0xDE]]
        (.error ErrorKind.i2cNoAck : Except ErrorKind Unit)).2 =
      .error ErrorKind.i2cNoAck :=
  spi_device_transaction_cs 3 0xFF 0xFB [.clockDataOut .msbNeg [0xDE]]
    (.error ErrorKind.i2cNoAck) (by decide)

section Helpers7

/-- Bits outside a mask are unaffected by OR-ing in a value inside it. -/
theorem lor_and_of_and_eq_zero (x s t : Nat) (hs : s &&& t = 0) :
    (x ||| s) &&& t = x &&& t := by
  apply Nat.eq_of_testBit_eq
  intro i
  rw [Nat.testBit_and, Nat.testBit_or, Nat.testBit_and]
  cases hts : s.testBit i with
  | false => simp
  | true =>
    have h0 : (s &&& t).testBit i = false := by
      rw [hs]; exact Nat.zero_testBit i
    rw [Nat.testBit_and, hts] at h0
    simp only [Bool.true_and] at h0
    simp [h0]

theorem pv1 (x : Nat) : (x ||| SCL) &&& 0xF8 = x &&& 0xF8 :=
  lor_and_of_and_eq_zero x SCL 0xF8 (by decide)

theorem pv2 (x : Nat) : (x ||| SCL ||| SDA) &&& 0xF8 = x &&& 0xF8 := by
  rw [lor_and_of_and_eq_zero _ SDA _ (by decide), pv1]

theorem pd1 (d : Nat) : (SCL ||| d) &&& 0xF8 = d &&& 0xF8 := by
  rw [Nat.lor_comm SCL d, lor_and_of_and_eq_zero d SCL _ (by decide)]

theorem pd3 (d : Nat) : (SCL ||| SDA ||| d) &&& 0xF8 = d &&& 0xF8 := by
  rw [Nat.lor_comm (SCL ||| SDA) d,
    lor_and_of_and_eq_zero d (SCL ||| SDA) _ (by decide)]

theorem pres_append {v d : Nat} {l1 l2 : List MpsseOp}
    (h1 : ∀ op ∈ l1, setGpioPreserves v d op)
    (h2 : ∀ op ∈ l2, setGpioPreserves v d op) :
    ∀ op ∈ l1 ++ l2, setGpioPreserves v d op := by
  intro op hop
  rcases List.mem_append.mp hop with h | h
  · exact h1 _ h
  · exact h2 _ h

theorem pres_i2cStart (v d m : Nat) :
    ∀ op ∈ i2cStart v d m, setGpioPreserves v d op := by
  intro op hop
  simp only [i2cStart, List.mem_append, List.mem_replicate] at hop
  rcases hop with ⟨-, rfl⟩ | ⟨-, rfl⟩
  · exact ⟨pv2 v, pd3 d⟩
  · exact ⟨pv1 v, pd3 d⟩

theorem pres_i2cSadR (v d addr : Nat) :
    ∀ op ∈ i2cSadR v d addr, setGpioPreserves v d op := by
  intro op hop
  simp only [i2cSadR, List.mem_cons, List.not_mem_nil, or_false] at hop
  rcases hop with rfl | rfl
  · exact ⟨rfl, pd3 d⟩
  · trivial

theorem pres_i2cSadW (v d addr : Nat) :
    ∀ op ∈ i2cSadW v d addr, setGpioPreserves v d op := by
  intro op hop
  simp only [i2cSadW, List.mem_cons, List.not_mem_nil, or_false] at hop
  rcases hop with rfl | rfl
  · exact ⟨rfl, pd3 d⟩
  · trivial

theorem pres_i2cSadRBare (v d addr : Nat) :
    ∀ op ∈ i2cSadRBare addr, setGpioPreserves v d op := by
  intro op hop
  simp only [i2cSadRBare, List.mem_cons, List.not_mem_nil, or_false] at hop
  subst hop
  trivial

theorem pres_i2cSak (v d : Nat) :
    ∀ op ∈ i2cSak v d, setGpioPreserves v d op := by
  intro op hop
  simp only [i2cSak, List.mem_cons, List.not_mem_nil, or_false] at hop
  rcases hop with rfl | rfl
  · exact ⟨rfl, pd1 d⟩
  · trivial

theorem pres_i2cReadLoop (v d n : Nat) :
    ∀ op ∈ i2cReadLoop v d n, setGpioPreserves v d op := by
  intro op hop
  simp only [i2cReadLoop, List.mem_flatMap, List.mem_range] at hop
  obtain ⟨idx, -, hmem⟩ := hop
  split at hmem <;>
    · simp only [List.cons_append, List.nil_append, List.mem_cons,
        List.not_mem_nil, or_false] at hmem
      rcases hmem with rfl | rfl | rfl | rfl
      · exact ⟨rfl, pd1 d⟩
      · trivial
      · exact ⟨rfl, pd3 d⟩
      · trivial

theorem pres_i2cWriteByteChunk (v d b : Nat) :
    ∀ op ∈ i2cWriteByteChunk v d b, setGpioPreserves v d op := by
  intro op hop
  simp only [i2cWriteByteChunk, List.mem_cons, List.not_mem_nil,
    or_false] at hop
  rcases hop with rfl | rfl | rfl | rfl
  · exact ⟨rfl, pd3 d⟩
  · trivial
  · exact ⟨rfl, pd1 d⟩
  · trivial

theorem pres_flatMapChunk (v d : Nat) (bytes : List Nat) :
    ∀ op ∈ bytes.flatMap fun b => i2cWriteByteChunk v d b,
      setGpioPreserves v d op := by
  intro op hop
  simp only [List.mem_flatMap] at hop
  obtain ⟨b, -, hmem⟩ := hop
  exact pres_i2cWriteByteChunk v d b _ hmem

theorem pres_i2cStop (v d m : Nat) :
    ∀ op ∈ i2cStop v d m, setGpioPreserves v d op := by
  intro op hop
  simp only [i2cStop, List.mem_append, List.mem_replicate] at hop
  rcases hop with (⟨-, rfl⟩ | ⟨-, rfl⟩) | ⟨-, rfl⟩
  · exact ⟨rfl, pd3 d⟩
  · exact ⟨pv1 v, pd3 d⟩
  · exact ⟨pv2 v, pd3 d⟩

theorem pres_i2cRepStart (v d m : Nat) :
    ∀ op ∈ i2cRepStart v d m, setGpioPreserves v d op := by
  intro op hop
  simp only [i2cRepStart, List.mem_append, List.mem_replicate] at hop
  rcases hop with (⟨-, rfl⟩ | ⟨-, rfl⟩) | ⟨-, rfl⟩
  · exact ⟨pv2 v, pd3 d⟩
  · exact ⟨pv1 v, pd3 d⟩
  · exact ⟨rfl, pd3 d⟩

theorem pres_i2cIdle (v d : Nat) :
    ∀ op ∈ i2cIdle v d, setGpioPreserves v d op := by
  intro op hop
  simp only [i2cIdle, List.mem_cons, List.not_mem_nil, or_false] at hop
  subst hop
  exact ⟨rfl, rfl⟩

theorem pres_si (v d : Nat) :
    ∀ op ∈ ([.sendImmediate] : List MpsseOp), setGpioPreserves v d op := by
  intro op hop
  simp only [List.mem_cons, List.not_mem_nil, or_false] at hop
  subst hop
  trivial

theorem pres_writeSlowLoop (v d m total : Nat) (resp : Nat → Nat) :
    ∀ (bytes : List Nat) (idx : Nat),
      ∀ op ∈ (writeSlowLoop v d m total resp idx bytes).sent,
        setGpioPreserves v d op := by
  intro bytes
  induction bytes with
  | nil => intro idx op hop; simp [writeSlowLoop] at hop
  | cons b rest ih =>
    intro idx op hop
    have hchunk : ∀ op2 ∈ i2cWriteByteChunk v d b ++
        ((if idx = total - 1 then i2cStop v d m ++ i2cIdle v d else []) ++
         [.sendImmediate]), setGpioPreserves v d op2 := by
      refine pres_append (pres_i2cWriteByteChunk v d b) (pres_append ?_ (pres_si v d))
      split
      · exact pres_append (pres_i2cStop v d m) (pres_i2cIdle v d)
      · intro op2 hop2; simp at hop2
    simp only [writeSlowLoop] at hop
    split at hop
    · exact hchunk _ hop
    · rcases List.mem_append.mp hop with h | h
      · exact hchunk _ h
      · exact ih (idx + 1) _ h

theorem pres_writeReadSlowLoop (v d : Nat) (resp : Nat → Nat) :
    ∀ (bytes : List Nat) (idx : Nat),
      ∀ op ∈ (writeReadSlowLoop v d resp idx bytes).sent,
        setGpioPreserves v d op := by
  intro bytes
  induction bytes with
  | nil => intro idx op hop; simp [writeReadSlowLoop] at hop
  | cons b rest ih =>
    intro idx op hop
    have hchunk : ∀ op2 ∈ i2cWriteByteChunk v d b ++ [.sendImmediate],
        setGpioPreserves v d op2 :=
      pres_append (pres_i2cWriteByteChunk v d b) (pres_si v d)
    simp only [writeReadSlowLoop] at hop
    split at hop
    · exact hchunk _ hop
    · rcases List.mem_append.mp hop with h | h
      · exact hchunk _ h
      · exact ih (idx + 1) _ h

end Helpers7


theorem removeFlush_pair (v d : Nat) :
    removeFlush [.setGpioLower v d, .sendImmediate] = [.setGpioLower v d] :=
  rfl

/-- Claim C10 — frame effect of the I2C engine.  The I2C methods never
assign the session's stored `value`/`direction` masks (their embeddings are
functions of the unchanged `v`, `d`).  Every set-GPIO command they emit
keeps the value and direction bits of the non-I2C pins 3–7 equal to the
stored masks (pin bits are only OR-ed onto `inner.value`/`inner.direction`),
and — for every transaction that runs to completion — the final command
(modulo the flush marker) restores the bank to the stored
`(value, direction)` idle configuration. -/
theorem i2c_frame_effect (v d m addr n : Nat) (bytes : List Nat)
    (resp : Nat → Nat) :
    (∀ op ∈ (readFastRun v d m addr n resp).sent, setGpioPreserves v d op) ∧
    (∀ op ∈ (readSlowRun v d m addr n resp).sent, setGpioPreserves v d op) ∧
    (∀ op ∈ (writeFastRun v d m addr bytes resp).sent,
      setGpioPreserves v d op) ∧
    (∀ op ∈ (writeSlowRun v d m addr bytes resp).sent,
      setGpioPreserves v d op) ∧
    (∀ op ∈ (writeReadFastRun v d m addr bytes n resp).sent,
      setGpioPreserves v d op) ∧
    (∀ op ∈ (writeReadSlowRun v d m addr bytes n resp).sent,
      setGpioPreserves v d op) ∧
    (n ≠ 0 → ∃ pre, removeFlush (readFastRun v d m addr n resp).sent =
      pre ++ [.setGpioLower v d]) ∧
    (bytes ≠ [] → ∃ pre,
      removeFlush (writeFastRun v d m addr bytes resp).sent =
      pre ++ [.setGpioLower v d]) ∧
    (bytes ≠ [] → n ≠ 0 → ∃ pre,
      removeFlush (writeReadFastRun v d m addr bytes n resp).sent =
      pre ++ [.setGpioLower v d]) ∧
    (n ≠ 0 → sakDecode (resp 0) = false → ∃ pre,
      removeFlush (readSlowRun v d m addr n resp).sent =
      pre ++ [.setGpioLower v d]) ∧
    (bytes ≠ [] → (∀ k, k < bytes.length + 1 → sakDecode (resp k) = false) →
      ∃ pre, removeFlush (writeSlowRun v d m addr bytes resp).sent =
      pre ++ [.setGpioLower v d]) ∧
    (bytes ≠ [] → n ≠ 0 →
      (∀ k, k < bytes.length + 2 → sakDecode (resp k) = false) →
      ∃ pre, removeFlush (writeReadSlowRun v d m addr bytes n resp).sent =
      pre ++ [.setGpioLower v d]) := by
  have hstartW : ∀ op ∈ i2cStartW v d m, setGpioPreserves v d op := by
    rw [i2cStartW_eq]; exact pres_i2cStart v d m
  have hbatchRF := pres_append (pres_append (pres_append (pres_append
    (pres_append (pres_append (pres_i2cStart v d m)
      (pres_i2cSadR v d addr)) (pres_i2cSak v d))
      (pres_i2cReadLoop v d n)) (pres_i2cStop v d m))
      (pres_i2cIdle v d)) (pres_si v d)
  have hbatchRS1 := pres_append (pres_append (pres_append
    (pres_i2cStart v d m) (pres_i2cSadR v d addr)) (pres_i2cSak v d))
    (pres_si v d)
  have hbatchRS2 := pres_append (pres_append (pres_append
    (pres_i2cReadLoop v d n) (pres_i2cStop v d m)) (pres_i2cIdle v d))
    (pres_si v d)
  have hbatchWF := pres_append (pres_append (pres_append (pres_append
    (pres_append (pres_append (pres_i2cStart v d m)
      (pres_i2cSadW v d addr)) (pres_i2cSak v d))
      (pres_flatMapChunk v d bytes)) (pres_i2cStop v d m))
      (pres_i2cIdle v d)) (pres_si v d)
  have hbatchWS1 := pres_append (pres_append (pres_append hstartW
    (pres_i2cSadW v d addr)) (pres_i2cSak v d)) (pres_si v d)
  have hbatchWRF := pres_append (pres_append (pres_append (pres_append
    (pres_append (pres_append (pres_append (pres_append (pres_append
      (pres_append (pres_i2cStart v d m) (pres_i2cSadW v d addr))
      (pres_i2cSak v d)) (pres_flatMapChunk v d bytes))
      (pres_i2cRepStart v d m)) (pres_i2cSadRBare v d addr))
      (pres_i2cSak v d)) (pres_i2cReadLoop v d n)) (pres_i2cStop v d m))
      (pres_i2cIdle v d)) (pres_si v d)
  have hbatchWRS1 := pres_append (pres_append (pres_append
    (pres_i2cStart v d m) (pres_i2cSadW v d addr)) (pres_i2cSak v d))
    (pres_si v d)
  have hbatchSR := pres_append (pres_append (pres_append
    (pres_i2cRepStart v d m) (pres_i2cSadRBare v d addr))
    (pres_i2cSak v d)) (pres_si v d)
  have hloopWS := pres_writeSlowLoop v d m bytes.length resp bytes 0
  have hloopWRS := pres_writeReadSlowLoop v d resp bytes 0
  refine ⟨?_, ?_, ?_, ?_, ?_, ?_, ?_, ?_, ?_, ?_, ?_, ?_⟩
  · simp only [readFastRun]
    split
    · intro op hop; simp at hop
    · split <;> exact hbatchRF
  · simp only [readSlowRun]
    split
    · intro op hop; simp at hop
    · split
      · exact hbatchRS1
      · exact pres_append hbatchRS1 hbatchRS2
  · simp only [writeFastRun]
    split
    · intro op hop; simp at hop
    · split <;> exact hbatchWF
  · simp only [writeSlowRun]
    split
    · intro op hop; simp at hop
    · split
      · exact hbatchWS1
      · exact pres_append hbatchWS1 hloopWS
  · simp only [writeReadFastRun]
    split
    · intro op hop; simp at hop
    · split
      · intro op hop; simp at hop
      · split <;> exact hbatchWRF
  · simp only [writeReadSlowRun]
    split
    · intro op hop; simp at hop
    · split
      · intro op hop; simp at hop
      · split
        · exact hbatchWRS1
        · split
          · exact pres_append hbatchWRS1 hloopWRS
          · exact pres_append hbatchWRS1 hloopWRS
          · split
            · exact pres_append (pres_append hbatchWRS1 hloopWRS) hbatchSR
            · exact pres_append (pres_append (pres_append hbatchWRS1
                hloopWRS) hbatchSR) (pres_append (pres_append (pres_append
                (pres_i2cReadLoop v d n) (pres_i2cStop v d m))
                (pres_i2cIdle v d)) (pres_si v d))
  · intro hn
    simp only [readFastRun, if_neg hn]
    refine ⟨i2cStart v d m ++ i2cSadR v d addr ++ i2cSak v d ++
      i2cReadLoop v d n ++ i2cStop v d m, ?_⟩
    split <;>
      simp [removeFlush_append, removeFlush_si, removeFlush_nil,
        removeFlush_cons_si, i2cStart_noFlush, i2cSadR_noFlush,
        i2cSak_noFlush, i2cReadLoop_noFlush, i2cStop_noFlush,
        i2cIdle_noFlush, i2cIdle, removeFlush_pair, List.append_assoc]
  · intro hb
    simp only [writeFastRun, if_neg hb]
    refine ⟨i2cStart v d m ++ i2cSadW v d addr ++ i2cSak v d ++
      (bytes.flatMap fun b => i2cWriteByteChunk v d b) ++ i2cStop v d m, ?_⟩
    split <;>
      simp [removeFlush_append, removeFlush_si, removeFlush_nil,
        removeFlush_cons_si, i2cStart_noFlush, i2cSadW_noFlush,
        i2cSak_noFlush, flatMapChunk_noFlush, i2cStop_noFlush,
        i2cIdle_noFlush, i2cIdle, removeFlush_pair, List.append_assoc]
  · intro hb hn
    simp only [writeReadFastRun, if_neg hb, if_neg hn]
    refine ⟨i2cStart v d m ++ i2cSadW v d addr ++ i2cSak v d ++
      (bytes.flatMap fun b => i2cWriteByteChunk v d b) ++
      i2cRepStart v d m ++ i2cSadRBare addr ++ i2cSak v d ++
      i2cReadLoop v d n ++ i2cStop v d m, ?_⟩
    split <;>
      simp [removeFlush_append, removeFlush_si, removeFlush_nil,
        removeFlush_cons_si, i2cStart_noFlush, i2cSadW_noFlush,
        i2cSak_noFlush, flatMapChunk_noFlush, i2cRepStart_noFlush,
        i2cSadRBare_noFlush, i2cReadLoop_noFlush, i2cStop_noFlush,
        i2cIdle_noFlush, i2cIdle, removeFlush_pair, List.append_assoc]
  · intro hn hack
    simp only [readSlowRun, if_neg hn, hack, Bool.false_eq_true, if_false]
    refine ⟨i2cStart v d m ++ i2cSadR v d addr ++ i2cSak v d ++
      i2cReadLoop v d n ++ i2cStop v d m, ?_⟩
    simp [removeFlush_append, removeFlush_si, removeFlush_nil,
      removeFlush_cons_si, i2cStart_noFlush, i2cSadR_noFlush,
      i2cSak_noFlush, i2cReadLoop_noFlush, i2cStop_noFlush,
      i2cIdle_noFlush, i2cIdle, removeFlush_pair, List.append_assoc]
  · intro hb hack
    have hack0 : sakDecode (resp 0) = false := hack 0 (by omega)
    obtain ⟨hs, -⟩ := writeSlowLoop_spec v d m resp bytes.length
      (fun k hk => hack k hk) bytes 0 hb (by omega)
    simp only [writeSlowRun, if_neg hb, hack0, Bool.false_eq_true, if_false]
    refine ⟨i2cStart v d m ++ i2cSadW v d addr ++ i2cSak v d ++
      (bytes.flatMap fun b => i2cWriteByteChunk v d b) ++ i2cStop v d m, ?_⟩
    simp [removeFlush_append, removeFlush_si, removeFlush_nil,
      removeFlush_cons_si, hs, i2cStartW_eq, i2cStart_noFlush,
      i2cSadW_noFlush, i2cSak_noFlush, i2cIdle, removeFlush_pair,
      List.append_assoc]
  · intro hb hn hack
    have hack0 : sakDecode (resp 0) = false := hack 0 (by omega)
    have hacksr : sakDecode (resp (bytes.length + 1)) = false :=
      hack _ (by omega)
    obtain ⟨hs, ho⟩ := writeReadSlowLoop_spec v d resp bytes 0
      (fun k hk1 hk2 => hack k (by omega))
    simp only [writeReadSlowRun, if_neg hb, if_neg hn, hack0, hacksr,
      Bool.false_eq_true, if_false, ho]
    refine ⟨i2cStart v d m ++ i2cSadW v d addr ++ i2cSak v d ++
      (bytes.flatMap fun b => i2cWriteByteChunk v d b) ++
      i2cRepStart v d m ++ i2cSadRBare addr ++ i2cSak v d ++
      i2cReadLoop v d n ++ i2cStop v d m, ?_⟩
    simp [removeFlush_append, removeFlush_si, removeFlush_nil,
      removeFlush_cons_si, hs, i2cStart_noFlush, i2cSadW_noFlush,
      i2cSak_noFlush, i2cRepStart_noFlush, i2cSadRBare_noFlush,
      i2cReadLoop_noFlush, i2cStop_noFlush, i2cIdle_noFlush, i2cIdle,
      removeFlush_pair, List.append_assoc]

/-- Witness for C10 at masks `v = 0x10`, `d = 0xF8`, margin 1, address
`0x50`, payload `[0xDE]`, 1-byte read, all ACKs Ack. -/
theorem i2c_frame_effect_witness :
    (∃ pre, removeFlush (readFastRun 0x10 0xF8 1 0x50 1 (fun _ => 0)).sent =
      pre ++ [.setGpioLower 0x10 0xF8]) ∧
    (∃ pre, removeFlush
        (writeSlowRun 0x10 0xF8 1 0x50 [0xDE] (fun _ => 0)).sent =
      pre ++ [.setGpioLower 0x10 0xF8]) ∧
    (∃ pre, removeFlush
        (writeReadSlowRun 0x10 0xF8 1 0x50 [0xDE] 1 (fun _ => 0)).sent =
      pre ++ [.setGpioLower 0x10 0xF8]) := by
  have h := i2c_frame_effect 0x10 0xF8 1 0x50 1 [0xDE] (fun _ => 0)
  exact ⟨h.2.2.2.2.2.2.1 (by decide),
    h.2.2.2.2.2.2.2.2.2.2.1 (by decide) (by decide),
    h.2.2.2.2.2.2.2.2.2.2.2 (by decide) (by decide) (by decide)⟩
